import Mathlib

/- Shallow embedding of apps/netutils/netlib/netlib_ipv6route.c (PX4-Autopilot
   NuttX tree).  The C file reads the procfs IPv6 routing table: three text
   lines per route entry, each holding an IPv6 address at a fixed column,
   converted to binary with inet_pton(AF_INET6, ...).

   Modeling choices:
   - a C char buffer is a List Char; reading buf[i] is List.getD with NUL
     default (all real reads are in bounds);
   - the FILE stream is a list of pending characters plus a flag recording
     whether the stream ends in an I/O error rather than end-of-file (the flag
     is invisible to the code, exactly as the fgets return value cannot
     distinguish the two);
   - struct netlib_ipv6_route_s is a record of three 16-byte address fields
     (called prefix, netmask, router in the C source; the first one is named
     pfx here because its C name is a reserved word in Lean);
   - return type ssize_t is Int: sizeof(struct netlib_ipv6_route_s) = 48 on
     success, 0 at end of file, -EINVAL on parse failure. -/

/-- PROCFS_LINELEN from the C source (line 46): size of the line buffer. -/
def PROCFS_LINELEN : Nat := 58

/-- ADDR_OFFSET from the C source (line 57): the fixed column where the
address text starts on each of the three lines of a group. -/
def ADDR_OFFSET : Nat := 15

/-- The NUL character, used by the C code as string terminator. -/
def nulChar : Char := Char.ofNat 0

/-- The EINVAL errno value (22 on NuttX); the C function returns -EINVAL. -/
def EINVAL : Int := 22

/-- sizeof(struct netlib_ipv6_route_s): three struct in6_addr of 16 bytes. -/
def sizeof_netlib_ipv6_route_s : Int := 48

/-- Read of a C char buffer at an index, modeled as List.getD. -/
def bufGet (buf : List Char) (i : Nat) : Char := buf.getD i nulChar

/-- The character class scanned over by set_nul_terminator (C lines 75-78):
hex digits 0-9 a-f A-F and the colon. -/
def isAddrChar (c : Char) : Bool :=
  decide (('0' ≤ c ∧ c ≤ '9') ∨ ('a' ≤ c ∧ c ≤ 'f') ∨
          ('A' ≤ c ∧ c ≤ 'F') ∨ c = ':')

/-- Number of leading address characters of a character list: some k when the
scan of set_nul_terminator stops at relative position k, none when the whole
list consists of address characters (in the C code the pointer would then run
past the modeled region). -/
def scanAddrChars : List Char → Option Nat
  | [] => none
  | c :: cs => if isAddrChar c then (scanAddrChars cs).map (fun k => k + 1) else some 0

/-- Absolute index at which the set_nul_terminator scan starting at `off`
stops: the first index at or after `off` holding a non-address character. -/
def nulScanIdx (buf : List Char) (off : Nat) : Option Nat :=
  (scanAddrChars (buf.drop off)).map (fun k => off + k)

/-- set_nul_terminator from the C source (lines 71-84): scan forward from
`off` while the character is a hex digit or a colon, then overwrite the first
disqualifying character with NUL.  The `none` branch corresponds to the C
pointer walking past the modeled buffer; it is proved unreachable for the
buffers the program builds (a NUL is always forced at index
PROCFS_LINELEN - 1 first). -/
def set_nul_terminator (buf : List Char) (off : Nat) : List Char :=
  match nulScanIdx buf off with
  | some i => buf.set i nulChar
  | none => buf

/-- Reading the C string that starts at `&buf[off]`: the characters up to the
first NUL. -/
def tokenAt (buf : List Char) (off : Nat) : List Char :=
  (buf.drop off).takeWhile (fun c => c != nulChar)

/-- Decimal digit value, as used by the C library inet_pton for the embedded
dotted-quad form. -/
def digitVal (c : Char) : Option Nat :=
  if '0' ≤ c ∧ c ≤ '9' then some (c.toNat - 48) else none

/-- Hex digit value, as used by the C library inet_pton for AF_INET6. -/
def xdigitVal (c : Char) : Option Nat :=
  if '0' ≤ c ∧ c ≤ '9' then some (c.toNat - 48)
  else if 'a' ≤ c ∧ c ≤ 'f' then some (c.toNat - 97 + 10)
  else if 'A' ≤ c ∧ c ≤ 'F' then some (c.toNat - 65 + 10)
  else none

/-- Modelled from the spec: loop of the standard textual-to-binary IPv4
conversion (inet_pton(AF_INET) of the C library, which is not part of src/),
following the classic BIND/libc algorithm.  State: `cur` is the octet being
accumulated (*tp), `sawDigit` and `octets` as in the C, `acc` the octets
already committed. -/
def pton4Go : List Char → Nat → Bool → Nat → List Nat → Option (List Nat)
  | [], cur, _, octets, acc =>
      if octets < 4 then none else some (acc ++ [cur])
  | c :: cs, cur, sawDigit, octets, acc =>
      match digitVal c with
      | some d =>
          if sawDigit && cur == 0 then none
          else if cur * 10 + d > 255 then none
          else if sawDigit then pton4Go cs (cur * 10 + d) true octets acc
          else if octets + 1 > 4 then none
          else pton4Go cs (cur * 10 + d) true (octets + 1) acc
      | none =>
          if c == '.' && sawDigit then
            if octets == 4 then none
            else pton4Go cs 0 false octets (acc ++ [cur])
          else none

/-- Modelled from the spec: standard textual-to-binary IPv4 conversion,
returning the four octets in network order, or none on malformed input. -/
def inet_pton4 (src : List Char) : Option (List Nat) :=
  pton4Go src 0 false 0 []

/-- Modelled from the spec: the post-loop phase of the standard IPv6
conversion: commit the pending 16-bit group if a hex digit was seen, then
expand the `::` gap (colonp) with zero bytes, requiring exactly 16 bytes. -/
def pton6Finish (tp : List Nat) (colonp : Option Nat) (sawX : Bool) (val : Nat) :
    Option (List Nat) :=
  match (if sawX then
           (if tp.length + 2 > 16 then none
            else some (tp ++ [val / 256, val % 256]))
         else some tp) with
  | none => none
  | some tp1 =>
      match colonp with
      | some cp =>
          if tp1.length = 16 then none
          else some (tp1.take cp ++ List.replicate (16 - tp1.length) 0 ++ tp1.drop cp)
      | none => if tp1.length = 16 then some tp1 else none

/-- Modelled from the spec: loop of the standard textual-to-binary IPv6
conversion (classic BIND/libc algorithm).  `tp` holds the bytes written so
far, `colonp` the byte position of a `::`, `sawX`/`val` the pending hex
group, `curtok` the suffix starting at the current token (for the embedded
dotted-quad form). -/
def pton6Go : List Char → List Nat → Option Nat → Bool → Nat → List Char →
    Option (List Nat)
  | [], tp, colonp, sawX, val, _ => pton6Finish tp colonp sawX val
  | c :: cs, tp, colonp, sawX, val, curtok =>
      match xdigitVal c with
      | some d =>
          if val * 16 + d > 65535 then none
          else pton6Go cs tp colonp true (val * 16 + d) curtok
      | none =>
          if c == ':' then
            if !sawX then
              match colonp with
              | some _ => none
              | none => pton6Go cs tp (some tp.length) false val cs
            else if cs.isEmpty then none
            else if tp.length + 2 > 16 then none
            else pton6Go cs (tp ++ [val / 256, val % 256]) colonp false 0 cs
          else if c == '.' then
            if tp.length + 4 ≤ 16 then
              match inet_pton4 curtok with
              | some b4 => pton6Finish (tp ++ b4) colonp false 0
              | none => none
            else none
          else none

/-- Modelled from the spec: `standard textual-to-binary IPv6 address
conversion semantics` — inet_pton(AF_INET6, src, dst) of the C library, which
is not part of src/.  Returns the 16 address bytes in network order on
success (the C returns 1 and fills dst), none when the text is rejected (the
C returns 0).  The C inet_pton can also return a negative value, but only
for an unsupported address family, which cannot happen for the fixed
AF_INET6 argument used by netlib_read_ipv6route. -/
def inet_pton6 (src : List Char) : Option (List Nat) :=
  match src with
  | ':' :: rest =>
      match rest with
      | ':' :: _ => pton6Go rest [] none false 0 rest
      | _ => none
  | _ => pton6Go src [] none false 0 src

/-- The FILE stream: pending characters, plus a flag saying whether the
stream ends in an I/O error instead of a clean end-of-file.  The flag is not
observable through the fgets return value, matching the C code, which only
checks fgets for NULL. -/
structure CStream where
  data : List Char
  ioErr : Bool
deriving DecidableEq, Repr

/-- One bounded line read: take characters up to and including the first
newline, but at most `n` characters (`n` is the fgets capacity minus one).
Returns the line read and the remaining stream data. -/
def takeLine : List Char → Nat → List Char × List Char
  | l, 0 => ([], l)
  | [], _ + 1 => ([], [])
  | c :: cs, n + 1 =>
      if c = '\n' then ([c], cs)
      else ((c :: (takeLine cs n).1), (takeLine cs n).2)

/-- Write a string into the front of a char buffer followed by a NUL
terminator, leaving the bytes after the terminator unchanged — the effect of
fgets on the reused line buffer. -/
def writeStr (buf : List Char) (s : List Char) : List Char :=
  s ++ nulChar :: buf.drop (s.length + 1)

/-- fgets(line, PROCFS_LINELEN, stream): reads at most PROCFS_LINELEN - 1 =
57 characters up to and including the first newline; returns none (NULL) when
no data is available — for end-of-file and for an I/O error alike.  Result:
(returned string or none, new buffer contents, new stream). -/
def fgets_model (buf : List Char) (s : CStream) :
    Option (List Char) × List Char × CStream :=
  match s.data with
  | [] => (none, buf, s)
  | c :: cs =>
      (some (takeLine (c :: cs) (PROCFS_LINELEN - 1)).1,
       writeStr buf (takeLine (c :: cs) (PROCFS_LINELEN - 1)).1,
       ⟨(takeLine (c :: cs) (PROCFS_LINELEN - 1)).2, s.ioErr⟩)

/-- struct netlib_ipv6_route_s: three 128-bit addresses as 16-byte lists in
network order.  The C field names are prefix, netmask, router; the first is
called pfx here because prefix is reserved in Lean. -/
structure ipv6_route_s where
  pfx : List Nat
  netmask : List Nat
  router : List Nat
deriving DecidableEq, Repr

/-- The stage-1 rejection test, mirroring C line 136 exactly:
`line[0] < '0' || line[0] > 9` — note the bare 9 (not the character '9') in
the second comparison, as written in the source. -/
def stage1Reject (c : Char) : Bool :=
  decide (c.toNat < 48 ∨ 9 < c.toNat)

/-- Outcome of processing one line: either an early return with a code
(C: return 0 / return -EINVAL), or a converted 16-byte address to store. -/
inductive StageOut where
  | done (ret : Int) (buf : List Char) (s : CStream)
  | next (addr : List Nat) (buf : List Char) (s : CStream)
deriving DecidableEq, Repr

/-- The block the C source repeats for each of the three lines (lines
141-158, 176-193, 211-228): force a NUL at line[PROCFS_LINELEN - 1], run
set_nul_terminator at &line[ADDR_OFFSET], and convert the resulting token
with inet_pton(AF_INET6, ...): a rejected token gives return -EINVAL, an
accepted one yields the address bytes for the current route field. -/
def addr_extract_convert (b1 : List Char) (s1 : CStream) : StageOut :=
  match inet_pton6 (tokenAt (set_nul_terminator (b1.set (PROCFS_LINELEN - 1) nulChar) ADDR_OFFSET) ADDR_OFFSET) with
  | none => StageOut.done (-EINVAL)
      (set_nul_terminator (b1.set (PROCFS_LINELEN - 1) nulChar) ADDR_OFFSET) s1
  | some a => StageOut.next a
      (set_nul_terminator (b1.set (PROCFS_LINELEN - 1) nulChar) ADDR_OFFSET) s1

/-- Stage 1 of netlib_read_ipv6route (C lines 127-158): fgets the target
line — NULL means return 0 — then the index test of line 136, then the
shared extract-and-convert block for the prefix field. -/
def stage1 (buf : List Char) (s : CStream) : StageOut :=
  match fgets_model buf s with
  | (none, b1, s1) => StageOut.done 0 b1 s1
  | (some _, b1, s1) =>
      if stage1Reject (bufGet b1 0) then StageOut.done (-EINVAL) b1 s1
      else addr_extract_convert b1 s1

/-- Stages 2 and 3 of netlib_read_ipv6route (C lines 162-193 and 197-228,
which are textually identical): fgets a continuation line — NULL means
return 0 — then the `line[0] != ' '` test, then the shared
extract-and-convert block. -/
def read_cont_stage (buf : List Char) (s : CStream) : StageOut :=
  match fgets_model buf s with
  | (none, b1, s1) => StageOut.done 0 b1 s1
  | (some _, b1, s1) =>
      if bufGet b1 0 ≠ ' ' then StageOut.done (-EINVAL) b1 s1
      else addr_extract_convert b1 s1

/-- netlib_read_ipv6route (C lines 107-231).  Takes the initial contents of
the stack line buffer (uninitialized in C, hence a parameter), the stream
and the caller's route record; returns (ssize_t result, final route record,
final stream).  Route fields are written as soon as the corresponding
inet_pton succeeds, exactly as the C writes through &route->field, so a
field already converted stays written even when a later stage returns
early. -/
def netlib_read_ipv6route (buf0 : List Char) (s : CStream) (route : ipv6_route_s) :
    Int × ipv6_route_s × CStream :=
  match stage1 buf0 s with
  | StageOut.done r _ s1 => (r, route, s1)
  | StageOut.next a1 b1 s1 =>
      match read_cont_stage b1 s1 with
      | StageOut.done r _ s2 => (r, { route with pfx := a1 }, s2)
      | StageOut.next a2 b2 s2 =>
          match read_cont_stage b2 s2 with
          | StageOut.done r _ s3 => (r, { route with pfx := a1, netmask := a2 }, s3)
          | StageOut.next a3 _ s3 =>
              (sizeof_netlib_ipv6_route_s,
               { pfx := a1, netmask := a2, router := a3 }, s3)

/-- Drop one physical line (at most 57 characters, through a newline) from
pending stream data. -/
def dropOneLine (d : List Char) : List Char := (takeLine d (PROCFS_LINELEN - 1)).2

/-- Drop k physical lines from pending stream data. -/
def dropLines : Nat → List Char → List Char
  | 0, d => d
  | k + 1, d => dropLines k (dropOneLine d)

/-- A concrete initial content for the uninitialized C stack buffer
`char line[PROCFS_LINELEN]`, used by the concrete evaluations. -/
def bufInit : List Char := List.replicate 58 ' '

/-- A concrete caller-owned route record with all bytes zero. -/
def route0 : ipv6_route_s :=
  ⟨List.replicate 16 0, List.replicate 16 0, List.replicate 16 0⟩

/-- A stream holding one well-formed three-line group in the documented
layout: four-digit index, labels aligned so each address starts at column
ADDR_OFFSET, valid IPv6 text. -/
def wf3Input : String :=
  "0001. target:  2001:0db8:0000:0000:0000:0000:0000:0000\n      netmask: ffff:ffff:ffff:ffff:0000:0000:0000:0000\n      router:  fe80:0000:0000:0000:0000:0000:0000:0001\n"

/-- A first line opening with the decimal digit 1. -/
def digitLine : String := "1. target:  2001:db8::\n"

/-- A stream holding only a well-formed stage-1 target line and nothing
else. -/
def targetOnly : String :=
  "0001. target:  2001:0db8:0000:0000:0000:0000:0000:0000\n"

/-- A concrete four-character buffer for exercising set_nul_terminator:
two address characters, then a space, then a NUL. -/
def c8Buf : List Char := ['f', ':', ' ', nulChar]

/- Helper lemmas. -/

/-- The stage-1 test of C line 136 rejects every character: no character code
is both at least 48 ('0') and at most 9, so the comparison `line[0] > 9`
(instead of `line[0] > '9'`) makes the test unsatisfiable. -/
theorem stage1Reject_true (c : Char) : stage1Reject c = true := by
  simp [stage1Reject]
  omega

/-- A bounded line read with nonzero capacity keeps the first character of
the stream as first character of the line. -/
theorem takeLine_cons (c : Char) (cs : List Char) (n : Nat) (h : n ≠ 0) :
    ∃ t, (takeLine (c :: cs) n).1 = c :: t := by
  cases n with
  | zero => exact absurd rfl h
  | succ n =>
      by_cases hc : c = '\n'
      · subst hc; exact ⟨[], by simp [takeLine]⟩
      · exact ⟨(takeLine cs n).1, by simp [takeLine, hc]⟩

/-- Reading index 0 of a buffer just written by fgets yields the first
character of the string written. -/
theorem bufGet_writeStr_zero (buf : List Char) (c : Char) (t : List Char) :
    bufGet (writeStr buf (c :: t)) 0 = c := by
  simp [bufGet, writeStr]

/-- Characterization of a continuation-stage step on a nonempty stream:
fetch the line, then either fail the leading-space test with -EINVAL and the
buffer untouched beyond the fgets write, or hand the buffer to the shared
extract-and-convert block. -/
theorem read_cont_stage_eq (buf : List Char) (s : CStream) (c : Char) (cs : List Char)
    (hd : s.data = c :: cs) :
    read_cont_stage buf s =
      if c ≠ ' ' then
        StageOut.done (-EINVAL) (writeStr buf (takeLine (c :: cs) (PROCFS_LINELEN - 1)).1)
          ⟨(takeLine (c :: cs) (PROCFS_LINELEN - 1)).2, s.ioErr⟩
      else
        addr_extract_convert (writeStr buf (takeLine (c :: cs) (PROCFS_LINELEN - 1)).1)
          ⟨(takeLine (c :: cs) (PROCFS_LINELEN - 1)).2, s.ioErr⟩ := by
  obtain ⟨t, ht⟩ := takeLine_cons c cs (PROCFS_LINELEN - 1) (by decide)
  have hf : fgets_model buf s =
      (some (takeLine (c :: cs) (PROCFS_LINELEN - 1)).1,
       writeStr buf (takeLine (c :: cs) (PROCFS_LINELEN - 1)).1,
       ⟨(takeLine (c :: cs) (PROCFS_LINELEN - 1)).2, s.ioErr⟩) := by
    unfold fgets_model
    rw [hd]
  unfold read_cont_stage
  simp only [hf]
  rw [ht, bufGet_writeStr_zero, ← ht]

/-- Characterization of the whole call: because the stage-1 test rejects
every character, a call on an empty stream returns 0 and a call on a
nonempty stream consumes one line and returns -EINVAL; the route record is
returned unchanged in both cases. -/
theorem netlib_run_eq (buf0 : List Char) (s : CStream) (route : ipv6_route_s) :
    netlib_read_ipv6route buf0 s route =
      match s.data with
      | [] => (0, route, s)
      | c :: cs => (-EINVAL, route, ⟨(takeLine (c :: cs) (PROCFS_LINELEN - 1)).2, s.ioErr⟩) := by
  cases hd : s.data with
  | nil =>
      have hf : fgets_model buf0 s = (none, buf0, s) := by
        unfold fgets_model
        rw [hd]
      unfold netlib_read_ipv6route stage1
      rw [hf]
  | cons c cs =>
      have hf : fgets_model buf0 s =
          (some (takeLine (c :: cs) (PROCFS_LINELEN - 1)).1,
           writeStr buf0 (takeLine (c :: cs) (PROCFS_LINELEN - 1)).1,
           ⟨(takeLine (c :: cs) (PROCFS_LINELEN - 1)).2, s.ioErr⟩) := by
        unfold fgets_model
        rw [hd]
      unfold netlib_read_ipv6route stage1
      rw [hf]
      simp [stage1Reject_true]

/-- The NUL character is not an address character. -/
theorem isAddrChar_nul : isAddrChar nulChar = false := by decide

/-- getD after drop reads the underlying list at the shifted index. -/
theorem getD_drop (l : List Char) (n k : Nat) :
    (l.drop n).getD k nulChar = l.getD (n + k) nulChar := by
  induction n generalizing l with
  | zero => simp
  | succ n ih =>
      cases l with
      | nil => simp
      | cons a l =>
          rw [List.drop_succ_cons, ih l, Nat.succ_add, List.getD_cons_succ]

/-- getD at the updated index after List.set. -/
theorem getD_set_self (l : List Char) (i : Nat) (a : Char) (h : i < l.length) :
    (l.set i a).getD i nulChar = a := by
  induction l generalizing i with
  | nil => simp at h
  | cons b l ih =>
      cases i with
      | zero => rfl
      | succ i =>
          rw [List.set_cons_succ, List.getD_cons_succ]
          exact ih i (by simpa using h)

/-- getD away from the updated index after List.set. -/
theorem getD_set_ne (l : List Char) (i j : Nat) (a : Char) (h : j ≠ i) :
    (l.set i a).getD j nulChar = l.getD j nulChar := by
  induction l generalizing i j with
  | nil => simp
  | cons b l ih =>
      cases i with
      | zero =>
          cases j with
          | zero => exact absurd rfl h
          | succ j => rfl
      | succ i =>
          cases j with
          | zero => rfl
          | succ j =>
              rw [List.set_cons_succ, List.getD_cons_succ, List.getD_cons_succ]
              exact ih i j (fun hh => h (by rw [hh]))

/-- When the scan reports no stop position, every character of the list is an
address character. -/
theorem scanAddr_none (l : List Char) (h : scanAddrChars l = none) :
    ∀ c ∈ l, isAddrChar c = true := by
  induction l with
  | nil => intro c hc; cases hc
  | cons a l ih =>
      simp only [scanAddrChars] at h
      by_cases ha : isAddrChar a = true
      · rw [if_pos ha] at h
        have hl : scanAddrChars l = none := by
          cases hsc : scanAddrChars l with
          | none => rfl
          | some k => rw [hsc] at h; simp at h
        intro c hc
        rcases List.mem_cons.mp hc with rfl | hc
        · exact ha
        · exact ih hl c hc
      · rw [if_neg ha] at h
        simp at h

/-- When the scan stops at position i, that position is in range, holds a
non-address character, and every position before it holds an address
character. -/
theorem scanAddr_some (l : List Char) (i : Nat) (h : scanAddrChars l = some i) :
    i < l.length ∧ isAddrChar (l.getD i nulChar) = false ∧
      ∀ j, j < i → isAddrChar (l.getD j nulChar) = true := by
  induction l generalizing i with
  | nil => simp [scanAddrChars] at h
  | cons a l ih =>
      simp only [scanAddrChars] at h
      by_cases ha : isAddrChar a = true
      · rw [if_pos ha] at h
        cases hsc : scanAddrChars l with
        | none => rw [hsc] at h; simp at h
        | some i0 =>
            rw [hsc] at h
            simp only [Option.map_some', Option.some_inj] at h
            obtain ⟨h1, h2, h3⟩ := ih i0 hsc
            subst h
            refine ⟨by simpa using Nat.succ_lt_succ h1, by simpa using h2, ?_⟩
            intro j hj
            cases j with
            | zero => simpa using ha
            | succ j0 =>
                rw [List.getD_cons_succ]
                exact h3 j0 (Nat.lt_of_succ_lt_succ hj)
      · rw [if_neg ha] at h
        simp only [Option.some_inj] at h
        subst h
        refine ⟨by simp, ?_, ?_⟩
        · simpa using Bool.eq_false_iff.mpr (fun hb => ha hb)
        · intro j hj
          exact absurd hj (Nat.not_lt_zero j)

/-- If some position of the list holds a non-address character, the scan
stops at some position no later than it. -/
theorem scanAddr_finds (l : List Char) (j : Nat) (hj : j < l.length)
    (hb : isAddrChar (l.getD j nulChar) = false) :
    ∃ i, scanAddrChars l = some i ∧ i ≤ j := by
  cases hsc : scanAddrChars l with
  | none =>
      have hmem : l.getD j nulChar ∈ l := by
        rw [List.getD_eq_getElem l nulChar hj]
        exact List.getElem_mem hj
      have := scanAddr_none l hsc (l.getD j nulChar) hmem
      rw [hb] at this
      cases this
  | some i =>
      obtain ⟨h1, h2, h3⟩ := scanAddr_some l i hsc
      refine ⟨i, rfl, ?_⟩
      by_contra hlt
      push_neg at hlt
      have := h3 j hlt
      rw [hb] at this
      cases this

/- Claim theorems. -/

/-- C8: for every NUL-terminated buffer and start offset, set_nul_terminator
writes a terminator at exactly the first position at or after the offset
whose character is not a hex digit or colon, leaves every character before
that position unchanged, and modifies nothing at any other position. -/
theorem set_nul_terminator_spec (buf : List Char) (off : Nat)
    (h : ∃ j, off ≤ j ∧ j < buf.length ∧ bufGet buf j = nulChar) :
    ∃ i, off ≤ i ∧ i < buf.length ∧ isAddrChar (bufGet buf i) = false ∧
      (∀ j, off ≤ j → j < i → isAddrChar (bufGet buf j) = true) ∧
      set_nul_terminator buf off = buf.set i nulChar ∧
      bufGet (set_nul_terminator buf off) i = nulChar ∧
      (∀ j, j ≠ i → bufGet (set_nul_terminator buf off) j = bufGet buf j) := by
  obtain ⟨j0, hoff, hlen, hnul⟩ := h
  have hdlen : j0 - off < (buf.drop off).length := by
    rw [List.length_drop]; omega
  have hbad : isAddrChar ((buf.drop off).getD (j0 - off) nulChar) = false := by
    rw [getD_drop, show off + (j0 - off) = j0 by omega]
    have hn : buf.getD j0 nulChar = nulChar := hnul
    rw [hn, isAddrChar_nul]
  obtain ⟨k, hk, hkle⟩ := scanAddr_finds (buf.drop off) (j0 - off) hdlen hbad
  obtain ⟨hk1, hk2, hk3⟩ := scanAddr_some (buf.drop off) k hk
  have hilen : off + k < buf.length := by
    rw [List.length_drop] at hk1; omega
  have hset : set_nul_terminator buf off = buf.set (off + k) nulChar := by
    unfold set_nul_terminator nulScanIdx
    rw [hk]
    rfl
  refine ⟨off + k, Nat.le_add_right off k, hilen, ?_, ?_, hset, ?_, ?_⟩
  · have hg := hk2
    rw [getD_drop] at hg
    exact hg
  · intro j hj1 hj2
    have hjk : j - off < k := by omega
    have hg := hk3 (j - off) hjk
    rw [getD_drop, show off + (j - off) = j by omega] at hg
    exact hg
  · rw [hset]
    exact getD_set_self buf (off + k) nulChar hilen
  · intro j hj
    rw [hset]
    exact getD_set_ne buf (off + k) j nulChar hj

/-- Witness for C8 on the concrete buffer c8Buf: the NUL at index 3 makes
the hypothesis true, and the terminator lands at index 2 (the space). -/
theorem set_nul_terminator_spec_witness :
    ∃ i, 0 ≤ i ∧ i < c8Buf.length ∧ isAddrChar (bufGet c8Buf i) = false ∧
      (∀ j, 0 ≤ j → j < i → isAddrChar (bufGet c8Buf j) = true) ∧
      set_nul_terminator c8Buf 0 = c8Buf.set i nulChar ∧
      bufGet (set_nul_terminator c8Buf 0) i = nulChar ∧
      (∀ j, j ≠ i → bufGet (set_nul_terminator c8Buf 0) j = bufGet c8Buf j) :=
  set_nul_terminator_spec c8Buf 0 ⟨3, by decide⟩

/-- C9: on any buffer of length PROCFS_LINELEN whose final byte has been
forced to NUL (as netlib_read_ipv6route does before every scan), the
set_nul_terminator scan starting at ADDR_OFFSET stops inside the buffer, at
an index no greater than PROCFS_LINELEN - 1: NUL is not an address
character, so the forced terminator bounds the loop. -/
theorem set_nul_terminator_terminates (buf : List Char)
    (h1 : buf.length = PROCFS_LINELEN)
    (h2 : bufGet buf (PROCFS_LINELEN - 1) = nulChar) :
    ∃ i, nulScanIdx buf ADDR_OFFSET = some i ∧ i ≤ PROCFS_LINELEN - 1 := by
  simp only [PROCFS_LINELEN, ADDR_OFFSET] at h1 h2 ⊢
  have hdlen : 42 < (buf.drop 15).length := by
    rw [List.length_drop, h1]; decide
  have hbad : isAddrChar ((buf.drop 15).getD 42 nulChar) = false := by
    rw [getD_drop]
    have h2g : buf.getD 57 nulChar = nulChar := h2
    show isAddrChar (buf.getD 57 nulChar) = false
    rw [h2g, isAddrChar_nul]
  obtain ⟨k, hk, hkle⟩ := scanAddr_finds (buf.drop 15) 42 hdlen hbad
  exact ⟨15 + k, by simp [nulScanIdx, hk], by omega⟩

/-- Witness for C9 on a concrete 58-byte buffer with NUL forced at its last
index. -/
theorem set_nul_terminator_terminates_witness :
    ∃ i, nulScanIdx ((List.replicate 58 ' ').set 57 nulChar) ADDR_OFFSET = some i ∧
      i ≤ PROCFS_LINELEN - 1 :=
  set_nul_terminator_terminates ((List.replicate 58 ' ').set 57 nulChar)
    (by decide) (by decide)

/-- C1: evaluated on a stream holding a well-formed three-line group in the
documented layout, netlib_read_ipv6route does not return
sizeof(struct netlib_ipv6_route_s): it returns -EINVAL and leaves the route
record untouched, because the stage-1 test of C line 136 compares line[0]
against the bare integer 9 instead of the character '9' and therefore
rejects every first line. -/
theorem ipv6route_wellformed_input_rejected :
    (netlib_read_ipv6route bufInit ⟨wf3Input.data, false⟩ route0).1 = -EINVAL ∧
    (netlib_read_ipv6route bufInit ⟨wf3Input.data, false⟩ route0).2.1 = route0 := by
  constructor <;> rfl

/-- C2: the stage-1 test rejects every character — including every decimal
digit — since no character code is simultaneously at least 48 and at most 9;
consequently a digit-opened target line makes the call fail with -EINVAL
instead of proceeding to address extraction. -/
theorem ipv6route_stage1_rejects_digit :
    (∀ c : Char, stage1Reject c = true) ∧
    (netlib_read_ipv6route bufInit ⟨digitLine.data, false⟩ route0).1 = -EINVAL :=
  ⟨stage1Reject_true, by rfl⟩

/-- C3: whenever netlib_read_ipv6route does not return the success value
sizeof(struct netlib_ipv6_route_s), the caller-supplied route record is
returned exactly as it was passed in — no field is written on a non-success
path. -/
theorem ipv6route_no_partial_record (buf0 : List Char) (s : CStream)
    (route : ipv6_route_s)
    (_h : (netlib_read_ipv6route buf0 s route).1 ≠ sizeof_netlib_ipv6_route_s) :
    (netlib_read_ipv6route buf0 s route).2.1 = route := by
  rw [netlib_run_eq]
  cases s.data <;> rfl

/-- Witness for C3: a call on an empty stream is a non-success call and
leaves the record unchanged. -/
theorem ipv6route_no_partial_record_witness :
    (netlib_read_ipv6route bufInit ⟨[], false⟩ route0).1 ≠ sizeof_netlib_ipv6_route_s ∧
    (netlib_read_ipv6route bufInit ⟨[], false⟩ route0).2.1 = route0 :=
  ⟨by decide, ipv6route_no_partial_record bufInit ⟨[], false⟩ route0 (by decide)⟩

/-- C4: a first call on an empty stream does return 0 (EndOfStream), but a
call on a stream holding only a well-formed stage-1 target line returns
-EINVAL, not the claimed EndOfStream: the stage-1 slip of C line 136 rejects
the line before the second fgets is ever reached. -/
theorem ipv6route_target_only_not_eof :
    (netlib_read_ipv6route bufInit ⟨[], false⟩ route0).1 = 0 ∧
    (netlib_read_ipv6route bufInit ⟨targetOnly.data, false⟩ route0).1 = -EINVAL := by
  constructor <;> rfl

/-- C5 counterexample: a stream whose read fails with an I/O error and a
stream at clean end-of-file produce the same return value 0, so no
ReadFailure outcome distinguishable from EndOfStream exists. -/
theorem ipv6route_ioerror_counterexample :
    (netlib_read_ipv6route bufInit ⟨[], true⟩ route0).1 = 0 ∧
    (netlib_read_ipv6route bufInit ⟨[], false⟩ route0).1 = 0 :=
  ⟨rfl, rfl⟩

/-- C5 amended: the return value of netlib_read_ipv6route never depends on
whether exhausted stream data means end-of-file or an I/O error (fgets
returns NULL in both cases and the code checks nothing else), and an I/O
error on the first read yields 0 — the same value as EndOfStream. -/
theorem ipv6route_ioerror_indistinguishable (buf0 : List Char)
    (route : ipv6_route_s) (d : List Char) :
    (netlib_read_ipv6route buf0 ⟨d, true⟩ route).1 =
      (netlib_read_ipv6route buf0 ⟨d, false⟩ route).1 ∧
    (netlib_read_ipv6route buf0 ⟨[], true⟩ route).1 = 0 := by
  constructor
  · rw [netlib_run_eq, netlib_run_eq]
    cases d <;> rfl
  · rw [netlib_run_eq]

/-- C6: on a continuation line whose first character is not a space the
stage fails with -EINVAL, the buffer left exactly as fgets wrote it (no NUL
forcing, no address extraction, no conversion); when the first character is
a space the stage proceeds to the shared extract-and-convert block. -/
theorem ipv6route_cont_marker_check (buf : List Char) (s : CStream) (c : Char)
    (cs : List Char) (hd : s.data = c :: cs) :
    (c ≠ ' ' → read_cont_stage buf s =
      StageOut.done (-EINVAL)
        (writeStr buf (takeLine (c :: cs) (PROCFS_LINELEN - 1)).1)
        ⟨(takeLine (c :: cs) (PROCFS_LINELEN - 1)).2, s.ioErr⟩) ∧
    (c = ' ' → read_cont_stage buf s =
      addr_extract_convert (writeStr buf (takeLine (c :: cs) (PROCFS_LINELEN - 1)).1)
        ⟨(takeLine (c :: cs) (PROCFS_LINELEN - 1)).2, s.ioErr⟩) := by
  constructor
  · intro hc
    rw [read_cont_stage_eq buf s c cs hd, if_pos hc]
  · intro hc
    rw [read_cont_stage_eq buf s c cs hd, if_neg (by simp [hc])]

/-- Witness for C6: a continuation line opening with the letter x fails the
marker test with -EINVAL and an untouched buffer. -/
theorem ipv6route_cont_marker_check_witness :
    read_cont_stage bufInit ⟨'x' :: ['\n'], false⟩ =
      StageOut.done (-EINVAL)
        (writeStr bufInit (takeLine ('x' :: ['\n']) (PROCFS_LINELEN - 1)).1)
        ⟨(takeLine ('x' :: ['\n']) (PROCFS_LINELEN - 1)).2, false⟩ :=
  (ipv6route_cont_marker_check bufInit ⟨'x' :: ['\n'], false⟩ 'x' ['\n'] rfl).1
    (by decide)

/-- C7: in the continuation-line processing of netlib_read_ipv6route, a
token rejected by the textual-to-binary IPv6 conversion makes the stage fail
with -EINVAL, and an accepted token makes the stage yield the 16 converted
address bytes (which the caller stores into the corresponding route field). -/
theorem ipv6route_cont_conversion (buf : List Char) (s : CStream) (cs : List Char)
    (hd : s.data = ' ' :: cs) :
    (inet_pton6 (tokenAt (set_nul_terminator ((writeStr buf (takeLine (' ' :: cs) (PROCFS_LINELEN - 1)).1).set (PROCFS_LINELEN - 1) nulChar) ADDR_OFFSET) ADDR_OFFSET) = none →
      read_cont_stage buf s =
        StageOut.done (-EINVAL)
          (set_nul_terminator ((writeStr buf (takeLine (' ' :: cs) (PROCFS_LINELEN - 1)).1).set (PROCFS_LINELEN - 1) nulChar) ADDR_OFFSET)
          ⟨(takeLine (' ' :: cs) (PROCFS_LINELEN - 1)).2, s.ioErr⟩) ∧
    (∀ a, inet_pton6 (tokenAt (set_nul_terminator ((writeStr buf (takeLine (' ' :: cs) (PROCFS_LINELEN - 1)).1).set (PROCFS_LINELEN - 1) nulChar) ADDR_OFFSET) ADDR_OFFSET) = some a →
      read_cont_stage buf s =
        StageOut.next a
          (set_nul_terminator ((writeStr buf (takeLine (' ' :: cs) (PROCFS_LINELEN - 1)).1).set (PROCFS_LINELEN - 1) nulChar) ADDR_OFFSET)
          ⟨(takeLine (' ' :: cs) (PROCFS_LINELEN - 1)).2, s.ioErr⟩) := by
  have he := read_cont_stage_eq buf s ' ' cs hd
  rw [if_neg (by simp)] at he
  constructor
  · intro hnone
    rw [he]
    unfold addr_extract_convert
    rw [hnone]
  · intro a ha
    rw [he]
    unfold addr_extract_convert
    rw [ha]

/-- Witness for C7: a netmask continuation line whose token is the malformed
address text ::: is rejected by the conversion and the stage returns
-EINVAL. -/
theorem ipv6route_cont_conversion_witness :
    read_cont_stage bufInit ⟨' ' :: "     netmask: :::\n".data, false⟩ =
      StageOut.done (-EINVAL)
        (set_nul_terminator ((writeStr bufInit (takeLine (' ' :: "     netmask: :::\n".data) (PROCFS_LINELEN - 1)).1).set (PROCFS_LINELEN - 1) nulChar) ADDR_OFFSET)
        ⟨(takeLine (' ' :: "     netmask: :::\n".data) (PROCFS_LINELEN - 1)).2, false⟩ :=
  (ipv6route_cont_conversion bufInit ⟨' ' :: "     netmask: :::\n".data, false⟩
    ("     netmask: :::\n".data) rfl).1 (by decide)

/-- C10: a single call consumes at most three physical lines from the
stream; everything after the consumed lines is left for subsequent calls. -/
theorem ipv6route_consumes_at_most_three_lines (buf0 : List Char) (s : CStream)
    (route : ipv6_route_s) :
    ∃ k, k ≤ 3 ∧
      ((netlib_read_ipv6route buf0 s route).2.2).data = dropLines k s.data := by
  rw [netlib_run_eq]
  cases hd : s.data with
  | nil => exact ⟨0, by omega, hd⟩
  | cons c cs => exact ⟨1, by omega, rfl⟩
